import Mathlib

/-!
Verification development for the waterspout SWI map generator (`make_swi.py`).

The Python source is shallowly embedded here:
* naive UTC timestamps (`datetime.datetime`) become `PyDateTime`, a day
  ordinal plus time-of-day fields; comparison goes through the total
  microsecond count `toMicro`;
* numpy float arrays become `List (List Fl)` where `Fl` is a rational
  number extended with a non-finite element `Fl.nan`; arithmetic
  propagates `nan` the way IEEE NaN propagates (float rounding is
  idealised to exact rational arithmetic, and the transcendental library
  functions `np.sqrt`, `np.cos` and the constant `np.pi` are abstract
  parameters `rsqrt`, `rcos`, `piQ`);
* the network and the filesystem are explicit oracles/states threaded
  through `fetch_gfs_subset` and `mainRun`;
* fallible calls return `Except`/are driven by the environment record.
-/

namespace SWI

/-- Model of a naive `datetime.datetime` in UTC: a day ordinal (days since
some fixed epoch, e.g. 1970-01-01) together with time-of-day fields, as
used by `latest_cycle` in `make_swi.py`. -/
structure PyDateTime where
  day : ℤ
  hour : ℕ
  minute : ℕ
  second : ℕ
  micro : ℕ
deriving DecidableEq

/-- Total number of microseconds denoted by a `PyDateTime`; `datetime`
comparison and subtraction agree with comparison of this count. -/
def toMicro (t : PyDateTime) : ℤ :=
  (((t.day * 24 + (t.hour : ℤ)) * 60 + (t.minute : ℤ)) * 60 + (t.second : ℤ)) * 1000000
    + (t.micro : ℤ)

/-- Boolean `datetime` comparison `a <= b`. -/
def dtLe (a b : PyDateTime) : Bool := decide (toMicro a ≤ toMicro b)

/-- `now_utc.replace(hour=h, minute=0, second=0, microsecond=0)`. -/
def replaceTime (t : PyDateTime) (h : ℕ) : PyDateTime :=
  ⟨t.day, h, 0, 0, 0⟩

/-- `t - dt.timedelta(days=n)`. -/
def subDays (t : PyDateTime) (n : ℤ) : PyDateTime :=
  ⟨t.day - n, t.hour, t.minute, t.second, t.micro⟩

/-- The `for h in [18, 12, 6, 0]` loop body of `latest_cycle`: return the
first candidate `ctime` with `ctime <= now_utc`, else fall through. -/
def latestCycleGo (now : PyDateTime) : List ℕ → PyDateTime
  | [] => replaceTime (subDays now 1) 18
  | h :: hs =>
    let ctime := replaceTime now h
    if dtLe ctime now then ctime else latestCycleGo now hs

/-- `latest_cycle(now_utc)` from `make_swi.py`: try cycles 18Z, 12Z, 06Z,
00Z of the same day, else fall back to the previous day's 18Z. -/
def latest_cycle (now : PyDateTime) : PyDateTime :=
  latestCycleGo now [18, 12, 6, 0]

/-- The candidate cycle times `latest_cycle` considers, in probe order:
hours 18, 12, 6, 0 of the same day, then the previous day's 18Z. -/
def probedCandidates (now : PyDateTime) : List PyDateTime :=
  [replaceTime now 18, replaceTime now 12, replaceTime now 6, replaceTime now 0,
   replaceTime (subDays now 1) 18]

/-- A numpy float sample: either a finite value (idealised as an exact
rational) or a non-finite value `nan` (covering IEEE NaN; division by
zero is also collapsed into `nan` in this model). -/
inductive Fl where
  | nan : Fl
  | num : ℚ → Fl
deriving DecidableEq

namespace Fl

/-- NaN-propagating addition. -/
def fadd : Fl → Fl → Fl
  | nan, _ => nan
  | _, nan => nan
  | num a, num b => num (a + b)

/-- NaN-propagating subtraction. -/
def fsub : Fl → Fl → Fl
  | nan, _ => nan
  | _, nan => nan
  | num a, num b => num (a - b)

/-- NaN-propagating multiplication (IEEE: `NaN * x = NaN` for all x). -/
def fmul : Fl → Fl → Fl
  | nan, _ => nan
  | _, nan => nan
  | num a, num b => num (a * b)

/-- NaN-propagating division; a zero divisor yields a non-finite result. -/
def fdiv : Fl → Fl → Fl
  | nan, _ => nan
  | _, nan => nan
  | num a, num b => if b = 0 then nan else num (a / b)

/-- Negation (`-x`). -/
def fneg : Fl → Fl
  | nan => nan
  | num a => num (-a)

/-- `np.maximum`, which propagates NaN from either argument. -/
def fmax : Fl → Fl → Fl
  | nan, _ => nan
  | _, nan => nan
  | num a, num b => num (max a b)

/-- `np.sqrt`: NaN on NaN or negative input, otherwise the abstract
square-root function `rsqrt` applied to the finite value. -/
def fsqrt (rsqrt : ℚ → ℚ) : Fl → Fl
  | nan => nan
  | num a => if a < 0 then nan else num (rsqrt a)

/-- `np.cos` via the abstract cosine function `rcos`. -/
def fcos (rcos : ℚ → ℚ) : Fl → Fl
  | nan => nan
  | num a => num (rcos a)

/-- `np.clip(x, 0, 1)` = `minimum(maximum(x, 0), 1)`; NaN stays NaN. -/
def fclip01 : Fl → Fl
  | nan => nan
  | num a => num (min (max a 0) 1)

end Fl

/-- Elementwise unary operation on a 2-D array. -/
def map2d (f : Fl → Fl) (a : List (List Fl)) : List (List Fl) :=
  a.map (fun r => r.map f)

/-- Elementwise binary operation on two 2-D arrays of equal shape. -/
def zip2d (f : Fl → Fl → Fl) (a b : List (List Fl)) : List (List Fl) :=
  List.zipWith (fun r s => List.zipWith f r s) a b

/-- The shape of a 2-D array: the list of row lengths. -/
def shape2 (a : List (List Fl)) : List ℕ := a.map List.length

/-- `a` is a rectangular `m × n` array. -/
def Rect (m n : ℕ) (a : List (List Fl)) : Prop :=
  a.length = m ∧ ∀ r ∈ a, r.length = n

instance (m n : ℕ) (a : List (List Fl)) : Decidable (Rect m n a) :=
  inferInstanceAs (Decidable (_ ∧ _))

/-- `np.gradient` of a 1-D array with unit spacing: one-sided differences
at the two ends, centred differences in the interior.  (numpy raises for
arrays of fewer than two samples; this model returns zeros there, and the
theorems about gradients assume at least two samples per axis.) -/
def grad1 (xs : List Fl) : List Fl :=
  let n := xs.length
  (List.range n).map (fun i =>
    if n ≤ 1 then Fl.num 0
    else if i = 0 then Fl.fsub (xs.getD 1 Fl.nan) (xs.getD 0 Fl.nan)
    else if i = n - 1 then Fl.fsub (xs.getD (n - 1) Fl.nan) (xs.getD (n - 2) Fl.nan)
    else Fl.fdiv (Fl.fsub (xs.getD (i + 1) Fl.nan) (xs.getD (i - 1) Fl.nan)) (Fl.num 2))

/-- `np.gradient(a, axis=1)`: row-wise 1-D gradient. -/
def gradAxis1 (a : List (List Fl)) : List (List Fl) :=
  a.map grad1

/-- `np.gradient(a, axis=0)`: column-wise 1-D gradient, written row by
row. -/
def gradAxis0 (a : List (List Fl)) : List (List Fl) :=
  let m := a.length
  (List.range m).map (fun i =>
    if m ≤ 1 then (a.getD i []).map (fun _ => Fl.num 0)
    else if i = 0 then List.zipWith Fl.fsub (a.getD 1 []) (a.getD 0 [])
    else if i = m - 1 then List.zipWith Fl.fsub (a.getD (m - 1) []) (a.getD (m - 2) [])
    else (List.zipWith Fl.fsub (a.getD (i + 1) []) (a.getD (i - 1) [])).map
      (fun x => Fl.fdiv x (Fl.num 2)))

/-- Linear-interpolation quantile of an already sorted nonempty list, at
position `q * (n - 1)` (numpy's default method). -/
def interpSorted (s : List ℚ) (q : ℚ) : ℚ :=
  let n := s.length
  let h : ℚ := q * ((n : ℚ) - 1)
  let i : ℕ := (Int.floor h).toNat
  s.getD i 0 + (h - (i : ℚ)) * (s.getD (i + 1) 0 - s.getD i 0)

/-- `np.quantile(xs, q)` over the finite samples `xs` (linear
interpolation over the sorted values). -/
def quantileQ (q : ℚ) (xs : List ℚ) : ℚ :=
  interpSorted (List.insertionSort (· ≤ ·) xs) q

/-- The finite samples of a 2-D array, in row-major order. -/
def finiteVals (a : List (List Fl)) : List ℚ :=
  a.flatten.filterMap (fun x => match x with | Fl.nan => none | Fl.num q => some q)

/-- `np.nanquantile(a, q)`: the quantile of the finite samples, NaN when
every sample is NaN. -/
def nanquantile (q : ℚ) (a : List (List Fl)) : Fl :=
  match finiteVals a with
  | [] => Fl.nan
  | _ => Fl.num (quantileQ q (finiteVals a))

/-- `scale_01(arr, qmin, qmax, clip)` from `make_swi.py`: affine rescale
by the `qmin`/`qmax` nan-quantiles with a small additive denominator
guard, then optionally clip into [0, 1].  (The float literal `1e-9` is
idealised as the exact rational 10^-9.) -/
def scale_01 (a : List (List Fl)) (qmin qmax : ℚ) (clip : Bool) : List (List Fl) :=
  let lo := nanquantile qmin a
  let hi := nanquantile qmax a
  let out := map2d (fun x =>
    Fl.fdiv (Fl.fsub x lo) (Fl.fadd (Fl.fsub hi lo) (Fl.num (1e-9 : ℚ)))) a
  if clip then map2d Fl.fclip01 out else out

/-- `finite_diff_divergence(lon, lat, u10, v10)` from `make_swi.py`:
centred-finite-difference horizontal divergence on a lat/lon grid, with
angular spacing converted to metres (longitude spacing scaled by the
cosine of latitude).  `rcos` models `np.cos` and `piQ` models `np.pi`
(used by `np.deg2rad x = x * pi / 180`). -/
def finite_diff_divergence (rcos : ℚ → ℚ) (piQ : ℚ) (lon lat : List Fl)
    (u10 v10 : List (List Fl)) : List (List Fl) :=
  let R : ℚ := 6371000
  let deg2rad : Fl → Fl := fun x => Fl.fmul x (Fl.num (piQ / 180))
  let lat_rad := lat.map deg2rad
  let dlat := (grad1 lat).map deg2rad
  let dlon := (grad1 lon).map deg2rad
  let dy := dlat.map (fun d => Fl.fmul d (Fl.num R))
  let dx := lat_rad.map (fun lr => dlon.map (fun dl =>
    Fl.fmul (Fl.fmul dl (Fl.num R)) (Fl.fcos rcos lr)))
  let du_dx := zip2d Fl.fdiv (gradAxis1 u10) dx
  let dv_dy := List.zipWith (fun row dyi => row.map (fun x => Fl.fdiv x dyi))
    (gradAxis0 v10) dy
  zip2d Fl.fadd du_dx dv_dy

/-- The gridded dataset returned by the subset fetch, after coordinate
and variable extraction (`lat`/`lon` coordinates and the five harmonised
raw variables used by `build_swi`; temperatures in K, winds in m/s,
CAPE in J/kg). -/
structure Dataset where
  lat : List Fl
  lon : List Fl
  t_sfc : List (List Fl)
  t850 : List (List Fl)
  u10 : List (List Fl)
  v10 : List (List Fl)
  cape : List (List Fl)
deriving DecidableEq

/-- `build_swi(ds)` from `make_swi.py`: Celsius conversion, vertical
temperature differential, sign-inverted finite-difference divergence,
robustly rescaled convergence, sqrt-CAPE depth proxy, and their product;
returns `(lon, lat, swi)`. -/
def build_swi (rsqrt rcos : ℚ → ℚ) (piQ : ℚ) (ds : Dataset) :
    List Fl × List Fl × List (List Fl) :=
  let lat := ds.lat
  let lon := ds.lon
  let t_sfc_c := map2d (fun x => Fl.fsub x (Fl.num (273.15 : ℚ))) ds.t_sfc
  let t850_c := map2d (fun x => Fl.fsub x (Fl.num (273.15 : ℚ))) ds.t850
  let dT := zip2d Fl.fsub t_sfc_c t850_c
  let div := finite_diff_divergence rcos piQ lon lat ds.u10 ds.v10
  let conv := map2d Fl.fneg div
  let depth_km := map2d (fun c =>
    Fl.fdiv (Fl.fsqrt rsqrt (Fl.fmax c (Fl.num 0))) (Fl.num 10)) ds.cape
  let conv_s := scale_01 conv (5 / 100) (95 / 100) true
  let swi := zip2d Fl.fmul (zip2d Fl.fmul dT depth_km) conv_s
  (lon, lat, swi)

/-- The spec's ΔT: "surface temperature minus upper-level temperature in
Celsius" (inputs in Kelvin). -/
def specDeltaT (t_sfc t850 : List (List Fl)) : List (List Fl) :=
  zip2d Fl.fsub (map2d (fun x => Fl.fsub x (Fl.num (273.15 : ℚ))) t_sfc)
    (map2d (fun x => Fl.fsub x (Fl.num (273.15 : ℚ))) t850)

/-- The spec's depth proxy: "the square root of CAPE clamped to be
non-negative (scaled by 1/10)". -/
def specDepthProxy (rsqrt : ℚ → ℚ) (cape : List (List Fl)) : List (List Fl) :=
  map2d (fun c => Fl.fdiv (Fl.fsqrt rsqrt (Fl.fmax c (Fl.num 0))) (Fl.num 10)) cape

/-- The spec's normalized convergence: "the sign-inverted
finite-difference divergence (with longitude spacing converted to metres
using the cosine of latitude) after quantile-based [0,1] scaling". -/
def specNormalizedConvergence (rcos : ℚ → ℚ) (piQ : ℚ) (lon lat : List Fl)
    (u10 v10 : List (List Fl)) : List (List Fl) :=
  scale_01 (map2d Fl.fneg (finite_diff_divergence rcos piQ lon lat u10 v10))
    (5 / 100) (95 / 100) true

/-- The spec's physical-formula index:
`index = ΔT × depth_proxy × normalized_convergence`. -/
def specIndexField (rsqrt rcos : ℚ → ℚ) (piQ : ℚ) (ds : Dataset) : List (List Fl) :=
  zip2d Fl.fmul
    (zip2d Fl.fmul (specDeltaT ds.t_sfc ds.t850) (specDepthProxy rsqrt ds.cape))
    (specNormalizedConvergence rcos piQ ds.lon ds.lat ds.u10 ds.v10)

/-- A row of three equal samples, for concrete test grids. -/
def row3 (x : Fl) : List Fl := [x, x, x]

/-- A 3×3 constant test grid. -/
def mat3 (x : Fl) : List (List Fl) := [row3 x, row3 x, row3 x]

/-- A 3×3 dataset whose only non-finite raw sample is the 10 m u-wind at
grid point (1,1); every other field is finite (ΔT = 10 °C, CAPE = 100). -/
def dsWindNan : Dataset :=
  ⟨[Fl.num 10, Fl.num 11, Fl.num 12], [Fl.num 10, Fl.num 11, Fl.num 12],
   mat3 (Fl.num (283.15 : ℚ)), mat3 (Fl.num (273.15 : ℚ)),
   [row3 (Fl.num 0), [Fl.num 0, Fl.nan, Fl.num 0], row3 (Fl.num 0)],
   mat3 (Fl.num 0), mat3 (Fl.num 100)⟩

/-- A 3×3 dataset whose only non-finite raw sample is CAPE at grid point
(0,0). -/
def dsCapeNan : Dataset :=
  ⟨[Fl.num 10, Fl.num 11, Fl.num 12], [Fl.num 10, Fl.num 11, Fl.num 12],
   mat3 (Fl.num (283.15 : ℚ)), mat3 (Fl.num (273.15 : ℚ)),
   mat3 (Fl.num 0), mat3 (Fl.num 0),
   [[Fl.nan, Fl.num 100, Fl.num 100], row3 (Fl.num 100), row3 (Fl.num 100)]⟩

/-- A sample is acceptable for the [0, 1] bound: non-finite, or finite
within the closed unit interval. -/
def flOk01 : Fl → Bool
  | Fl.nan => true
  | Fl.num q => decide (0 ≤ q ∧ q ≤ 1)

/-- A sample is finite and strictly positive. -/
def flPos : Fl → Bool
  | Fl.nan => false
  | Fl.num q => decide (0 < q)

/-- The denominator `hi - lo + 1e-9` computed inside `scale_01`. -/
def scaleDenom (a : List (List Fl)) (qmin qmax : ℚ) : Fl :=
  Fl.fadd (Fl.fsub (nanquantile qmax a) (nanquantile qmin a)) (Fl.num (1e-9 : ℚ))

/-- A small 2×2 array with one NaN, used as a concrete input for
`scale_01`. -/
def arrW7 : List (List Fl) :=
  [[Fl.num 1, Fl.nan], [Fl.num 2, Fl.num 4]]

/-- The bounding box `BBOX = (-92.0, -74.0, 40.5, 49.5)` (lonW, lonE,
latS, latN) from `make_swi.py`. -/
def BBOX : ℚ × ℚ × ℚ × ℚ := (-92, -74, 40.5, 49.5)

/-- The raster output path `OUT_PNG`. -/
def OUT_PNG : String := "web/swi_overlay.png"

/-- The metadata output path `OUT_META`. -/
def OUT_META : String := "web/swi_meta.json"

/-- The contour breakpoints `LEVELS` from `make_swi.py`. -/
def LEVELS : List ℚ := [0, 10, 20, 30, 40, 50, 70]

/-- The contour colours `COLORS` from `make_swi.py` (RGBA hex; the first
is fully transparent). -/
def COLORS : List String :=
  ["#00000000", "#4cc9f0", "#4895ef", "#4361ee", "#f59e0b", "#ef4444", "#b91c1c"]

/-- The trailing alpha byte of a `#RRGGBBAA` colour string. -/
def alphaHex (c : String) : String := (c.drop 7).take 2

/-- Modelled from the spec: the Classifier's class assignment ("values at
or below the lowest breakpoint render fully transparent; values between
consecutive breakpoints render with a distinct flat color").  The actual
rasterisation in `render_contours` is done by the matplotlib library
(`BoundaryNorm` and `ListedColormap`), an external collaborator not in
this repository; here the class of `v` is the colour indexed by the
number of breakpoints strictly below `v`, minus one (clamped at zero), so
everything at or below the lowest breakpoint takes the first colour. -/
def classify (levels : List ℚ) (colors : List String) (v : ℚ) : String :=
  colors.getD ((levels.countP (fun l => decide (l < v))) - 1) ""

/-- A JSON value, for the metadata record. -/
inductive Jv where
  | str : String → Jv
  | qnum : ℚ → Jv
  | arr : List Jv → Jv
  | obj : List (String × Jv) → Jv

/-- The keys of a JSON object, in order. -/
def jvKeys : Jv → List String
  | Jv.obj l => l.map Prod.fst
  | _ => []

/-- Field lookup in a JSON object. -/
def jvLookup (j : Jv) (k : String) : Option Jv :=
  match j with
  | Jv.obj l => (l.find? (fun p => p.1 == k)).map Prod.snd
  | _ => none

/-- Proleptic-Gregorian date from a day ordinal (days since 1970-01-01),
the civil-from-days algorithm; models the calendar arithmetic inside the
`datetime` library used by `isoformat`. -/
def civilFromDays (z : ℤ) : ℤ × ℕ × ℕ :=
  let zs := z + 719468
  let era := zs.ediv 146097
  let doe := (zs - era * 146097).toNat
  let yoe := (doe - doe / 1460 + doe / 36524 - doe / 146096) / 365
  let doy := doe - (365 * yoe + yoe / 4 - yoe / 100)
  let mp := (5 * doy + 2) / 153
  let d := doy - (153 * mp + 2) / 5 + 1
  let m := if mp < 10 then mp + 3 else mp - 9
  let y := (yoe : ℤ) + era * 400 + (if m ≤ 2 then 1 else 0)
  (y, m, d)

/-- Left-pad a number with zeros to the given width. -/
def pad (w n : ℕ) : String :=
  let s := toString n
  if s.length < w then String.mk (List.replicate (w - s.length) '0') ++ s else s

/-- `datetime.isoformat()`: `YYYY-MM-DDTHH:MM:SS`, with a `.ffffff`
fractional part exactly when the microsecond field is nonzero (a library
collaborator, modelled faithfully to CPython's behaviour). -/
def isoformat (t : PyDateTime) : String :=
  let ymd := civilFromDays t.day
  pad 4 ymd.1.toNat ++ "-" ++ pad 2 ymd.2.1 ++ "-" ++ pad 2 ymd.2.2 ++ "T" ++
    pad 2 t.hour ++ ":" ++ pad 2 t.minute ++ ":" ++ pad 2 t.second ++
    (if t.micro = 0 then "" else "." ++ pad 6 t.micro)

/-- The metadata dict built at the end of `main()`:
`{"generated_utc": now.isoformat()+"Z", "cycle_utc": cyc.isoformat()+"Z",
"bounds": {...BBOX...}, "levels": LEVELS}`. -/
def mkMeta (now cyc : PyDateTime) : Jv :=
  Jv.obj [("generated_utc", Jv.str (isoformat now ++ "Z")),
          ("cycle_utc", Jv.str (isoformat cyc ++ "Z")),
          ("bounds", Jv.obj [("lon_w", Jv.qnum BBOX.1), ("lon_e", Jv.qnum BBOX.2.1),
                             ("lat_s", Jv.qnum BBOX.2.2.1), ("lat_n", Jv.qnum BBOX.2.2.2)]),
          ("levels", Jv.arr (LEVELS.map Jv.qnum))]

/-- An HTTP response: a status code and (for successful responses) the
dataset the body parses into via `xr.open_dataset`. -/
structure HttpResp where
  status : ℕ
  content : Dataset
deriving DecidableEq

/-- The query parameters built by `fetch_gfs_subset` (the `strftime`
renderings of the cycle are taken as the strings `hh` and `ymd`; numbers
are rendered with `toString`). -/
def gfsParams (hh ymd : String) (bbox : ℚ × ℚ × ℚ × ℚ) : List (String × String) :=
  [("file", "gfs.t" ++ hh ++ "z.pgrb2.0p25.f000"),
   ("lev_surface", "on"), ("lev_10_m_above_ground", "on"), ("lev_850_mb", "on"),
   ("var_tmp", "on"), ("var_ugrd", "on"), ("var_vgrd", "on"), ("var_cape", "on"),
   ("leftlon", toString bbox.1), ("rightlon", toString bbox.2.1),
   ("toplat", toString bbox.2.2.2), ("bottomlat", toString bbox.2.2.1),
   ("dir", "/gfs." ++ ymd ++ "/" ++ hh ++ "/atmos"), ("format", "netcdf")]

/-- `fetch_gfs_subset` from `make_swi.py`: issue exactly one HTTP request
(`net k` is the response the network would give to the k-th request this
run makes; the code consults only `net 0`), call `raise_for_status`
(which raises exactly on a status of 400 or above), and parse the body.
There is no retry loop; the 120 s timeout bounds the wait but is not
otherwise observable in this model. -/
def fetch_gfs_subset (net : ℕ → HttpResp) : Except String Dataset :=
  let r := net 0
  if 400 ≤ r.status then Except.error ("HTTP " ++ toString r.status)
  else Except.ok r.content

/-- Modelled from the spec: the SubsetFetcher retry contract ("on
transient failure (non-2xx status, network error), retries up to a
configurable count with a fixed or backoff delay between attempts; on
exhausting retries, raises a fatal error").  `src/make_swi.py` contains
no retry loop, so the contract is modelled here from the spec's words
for comparison with the single-attempt code. -/
def specSubsetFetch (retries : ℕ) (net : ℕ → HttpResp) : Except String Dataset :=
  match (List.range retries).findSome? (fun k =>
      if 400 ≤ (net k).status then none else some (net k).content) with
  | some d => Except.ok d
  | none => Except.error ("retries exhausted")

/-- Process exit: `sys.exit(main())` exits 0 when `main` returns `None`,
and Python exits non-zero when an exception escapes `main`. -/
inductive ExitStatus where
  | success : ExitStatus
  | failure : ExitStatus
deriving DecidableEq

/-- The effect environment of one run: the outcome of the single fetch,
and whether the raster write (`plt.savefig`) and the metadata write
(`OUT_META.write_text`) succeed at the OS level. -/
structure Env where
  fetch : Except String Dataset
  renderOk : Bool
  metaOk : Bool

/-- The published artifacts on disk: the raster (identified by the data
rendered into it) and the metadata record, each absent until first
published. -/
structure FS where
  png : Option (List Fl × List Fl × List (List Fl))
  meta : Option Jv

/-- `main()` from `make_swi.py`: resolve the cycle, fetch (an exception
propagates and the process exits non-zero with no writes), derive the
field, render the raster to `OUT_PNG`, then write the metadata to
`OUT_META`.  The two writes are sequential and direct (no temporary file,
no atomic rename): a failing metadata write leaves the new raster behind
with the old metadata. -/
def mainRun (rsqrt rcos : ℚ → ℚ) (piQ : ℚ) (now : PyDateTime) (env : Env)
    (fs0 : FS) : ExitStatus × FS :=
  let cyc := latest_cycle now
  match env.fetch with
  | Except.error _ => (ExitStatus.failure, fs0)
  | Except.ok ds =>
    let res := build_swi rsqrt rcos piQ ds
    if env.renderOk then
      if env.metaOk then
        (ExitStatus.success, ⟨some res, some (mkMeta now cyc)⟩)
      else
        (ExitStatus.failure, ⟨some res, fs0.meta⟩)
    else
      (ExitStatus.failure, fs0)

/-- The inverse of `toMicro`: split a microsecond count into day ordinal
and time-of-day fields. -/
def ofMicro (mu : ℤ) : PyDateTime :=
  let day := mu.ediv 86400000000
  let rem := (mu.emod 86400000000).toNat
  ⟨day, rem / 3600000000, rem % 3600000000 / 60000000, rem % 60000000 / 1000000,
   rem % 1000000⟩

/-- Modelled from the spec: the CycleResolver contract ("Starting from
the boundary at or before now, step backward in 6-hour increments up to a
bounded number of attempts (a small constant, e.g. 12 ...).  For each
candidate, attempt to confirm availability ... The first confirmed
candidate is returned immediately"; no confirmed candidate means no
cycle).  `latest_cycle` in `src/make_swi.py` performs no availability
confirmation, so the probing contract is modelled here from the spec's
words for comparison. -/
def specCycleResolver (avail : PyDateTime → Bool) (now : PyDateTime) :
    Option PyDateTime :=
  let start := replaceTime now (6 * (now.hour / 6))
  (List.range 12).findSome? (fun k =>
    let c := ofMicro (toMicro start - (k : ℤ) * 21600000000)
    if avail c then some c else none)

/-- An empty dataset, used as a placeholder response body. -/
def dsEmptyW : Dataset := ⟨[], [], [], [], [], [], []⟩

/-- A distinct small dataset, the body of a successful second response. -/
def dsSecondW : Dataset := ⟨[Fl.num 1], [Fl.num 2], [], [], [], [], []⟩

/-- A network oracle whose first response is a 503 and whose later
responses succeed. -/
def netFailThenOk : ℕ → HttpResp :=
  fun k => if k = 0 then ⟨503, dsEmptyW⟩ else ⟨200, dsSecondW⟩

/-- A network oracle that always answers 503. -/
def netAllFail : ℕ → HttpResp := fun _ => ⟨503, dsEmptyW⟩

/-- A concrete "now": day ordinal 20000, at 20:30:00 UTC. -/
def now20 : PyDateTime := ⟨20000, 20, 30, 0, 0⟩

/-- A run environment whose fetch raises (cycle data not published). -/
def envFetchErr : Env := ⟨Except.error ("HTTP 404"), true, true⟩

/-- A run environment whose fetch and render succeed but whose metadata
write fails. -/
def envMetaFail : Env := ⟨Except.ok dsEmptyW, true, false⟩

/-- An initially empty artifact store. -/
def fs00 : FS := ⟨none, none⟩

end SWI

namespace SWI

theorem toMicro_replaceTime (t : PyDateTime) (h : ℕ) :
    toMicro (replaceTime t h) = (t.day * 24 + (h : ℤ)) * 3600000000 := by
  simp only [toMicro, replaceTime]
  push_cast
  ring

theorem dtLe_iff (a b : PyDateTime) : dtLe a b = true ↔ toMicro a ≤ toMicro b := by
  simp [dtLe]

theorem replaceTime_zero_le (now : PyDateTime) : dtLe (replaceTime now 0) now = true := by
  rw [dtLe_iff, toMicro_replaceTime]
  simp only [toMicro]
  push_cast
  nlinarith [Int.ofNat_nonneg now.hour, Int.ofNat_nonneg now.minute,
    Int.ofNat_nonneg now.second, Int.ofNat_nonneg now.micro]

theorem fallback_le (now : PyDateTime) :
    toMicro (replaceTime (subDays now 1) 18) ≤ toMicro now := by
  simp only [toMicro, replaceTime, subDays]
  push_cast
  nlinarith [Int.ofNat_nonneg now.hour, Int.ofNat_nonneg now.minute,
    Int.ofNat_nonneg now.second, Int.ofNat_nonneg now.micro]

theorem latestCycleGo_le (now : PyDateTime) :
    ∀ hs : List ℕ, toMicro (latestCycleGo now hs) ≤ toMicro now := by
  intro hs
  induction hs with
  | nil => exact fallback_le now
  | cons h t ih =>
    simp only [latestCycleGo]
    by_cases hc : dtLe (replaceTime now h) now = true
    · rw [if_pos hc]
      exact (dtLe_iff _ _).mp hc
    · rw [if_neg hc]
      exact ih

theorem latest_cycle_same_day (now : PyDateTime) :
    ∃ h, (h = 18 ∨ h = 12 ∨ h = 6 ∨ h = 0) ∧ latest_cycle now = replaceTime now h := by
  by_cases h18 : dtLe (replaceTime now 18) now = true
  · exact ⟨18, Or.inl rfl, by simp [latest_cycle, latestCycleGo, h18]⟩
  · by_cases h12 : dtLe (replaceTime now 12) now = true
    · exact ⟨12, Or.inr (Or.inl rfl), by simp [latest_cycle, latestCycleGo, h18, h12]⟩
    · by_cases h6 : dtLe (replaceTime now 6) now = true
      · exact ⟨6, Or.inr (Or.inr (Or.inl rfl)),
          by simp [latest_cycle, latestCycleGo, h18, h12, h6]⟩
      · exact ⟨0, Or.inr (Or.inr (Or.inr rfl)),
          by simp [latest_cycle, latestCycleGo, h18, h12, h6, replaceTime_zero_le now]⟩

/-- C2: for every "now" timestamp, `latest_cycle` never returns a cycle
strictly after "now"; the candidate cycle times it probes (18Z, 12Z, 06Z,
00Z of the same day, then the previous day's 18Z) are each exactly six
hours (21600000000 microseconds) before the previous candidate, hence
strictly decreasing, and the function returns exactly the first candidate
that is at or before "now". -/
theorem latest_cycle_le_now_and_six_hour_steps (now : PyDateTime) :
    toMicro (latest_cycle now) ≤ toMicro now ∧
    List.Chain' (fun a b => toMicro b + 21600000000 = toMicro a) (probedCandidates now) ∧
    (probedCandidates now).find? (fun c => dtLe c now) = some (latest_cycle now) := by
  refine ⟨latestCycleGo_le now _, ?_, ?_⟩
  · simp only [probedCandidates, List.chain'_cons, List.chain'_singleton, and_true,
      toMicro_replaceTime, subDays]
    refine ⟨by push_cast; ring, by push_cast; ring, by push_cast; ring, by push_cast; ring⟩
  · by_cases h18 : dtLe (replaceTime now 18) now = true
    · simp [probedCandidates, latest_cycle, latestCycleGo, List.find?, h18]
    · by_cases h12 : dtLe (replaceTime now 12) now = true
      · simp [probedCandidates, latest_cycle, latestCycleGo, List.find?, h18, h12]
      · by_cases h6 : dtLe (replaceTime now 6) now = true
        · simp [probedCandidates, latest_cycle, latestCycleGo, List.find?, h18, h12, h6]
        · simp [probedCandidates, latest_cycle, latestCycleGo, List.find?, h18, h12, h6,
            replaceTime_zero_le now]

theorem getD_eq_getElem {α : Type} (l : List α) (d : α) {i : ℕ} (h : i < l.length) :
    l.getD i d = l[i] := by
  rw [List.getD_eq_getElem?_getD, List.getElem?_eq_getElem h]
  rfl

theorem getD_mem {α : Type} (l : List α) (d : α) {i : ℕ} (h : i < l.length) :
    l.getD i d ∈ l := by
  rw [getD_eq_getElem l d h]
  exact List.getElem_mem h

theorem map_getD {α β : Type} (f : α → β) (l : List α) (d : α) (d' : β) {i : ℕ}
    (h : i < l.length) : (l.map f).getD i d' = f (l.getD i d) := by
  rw [getD_eq_getElem _ _ (by simpa using h), getD_eq_getElem _ _ h, List.getElem_map]

theorem zipWith_getD {α β γ : Type} (f : α → β → γ) (a : List α) (b : List β)
    (da : α) (db : β) (dc : γ) {i : ℕ} (ha : i < a.length) (hb : i < b.length) :
    (List.zipWith f a b).getD i dc = f (a.getD i da) (b.getD i db) := by
  have h : i < (List.zipWith f a b).length := by
    rw [List.length_zipWith]
    exact Nat.lt_min.mpr ⟨ha, hb⟩
  rw [getD_eq_getElem _ _ h, getD_eq_getElem _ _ ha, getD_eq_getElem _ _ hb,
    List.getElem_zipWith]

theorem mem_zipWith {α β γ : Type} {f : α → β → γ} {c : γ} :
    ∀ {a : List α} {b : List β}, c ∈ List.zipWith f a b →
      ∃ x y, x ∈ a ∧ y ∈ b ∧ c = f x y := by
  intro a
  induction a with
  | nil => intro b h; simp at h
  | cons x xs ih =>
    intro b h
    cases b with
    | nil => simp at h
    | cons y ys =>
      simp only [List.zipWith_cons_cons, List.mem_cons] at h
      rcases h with h | h
      · exact ⟨x, y, List.mem_cons_self x xs, List.mem_cons_self y ys, h⟩
      · obtain ⟨x', y', hx, hy, he⟩ := ih h
        exact ⟨x', y', List.mem_cons_of_mem _ hx, List.mem_cons_of_mem _ hy, he⟩

theorem Rect.rowLen {m n : ℕ} {a : List (List Fl)} (h : Rect m n a) {i : ℕ}
    (hi : i < m) : (a.getD i []).length = n :=
  h.2 _ (getD_mem a [] (h.1 ▸ hi))

theorem rect_map2d (f : Fl → Fl) {m n : ℕ} {a : List (List Fl)} (h : Rect m n a) :
    Rect m n (map2d f a) := by
  constructor
  · simp [map2d, h.1]
  · intro r hr
    simp only [map2d, List.mem_map] at hr
    obtain ⟨s, hs, rfl⟩ := hr
    simp [h.2 s hs]

theorem rect_zip2d (f : Fl → Fl → Fl) {m n : ℕ} {a b : List (List Fl)}
    (ha : Rect m n a) (hb : Rect m n b) : Rect m n (zip2d f a b) := by
  constructor
  · simp [zip2d, List.length_zipWith, ha.1, hb.1]
  · intro r hr
    obtain ⟨x, y, hx, hy, rfl⟩ := mem_zipWith hr
    simp [List.length_zipWith, ha.2 x hx, hb.2 y hy]

theorem map2d_getD (f : Fl → Fl) {m n : ℕ} {a : List (List Fl)} (h : Rect m n a)
    {i j : ℕ} (hi : i < m) (hj : j < n) :
    ((map2d f a).getD i []).getD j Fl.nan = f ((a.getD i []).getD j Fl.nan) := by
  unfold map2d
  rw [map_getD _ a [] [] (h.1 ▸ hi)]
  exact map_getD f _ Fl.nan Fl.nan (by rw [h.rowLen hi]; exact hj)

theorem zip2d_getD (f : Fl → Fl → Fl) {m n : ℕ} {a b : List (List Fl)}
    (ha : Rect m n a) (hb : Rect m n b) {i j : ℕ} (hi : i < m) (hj : j < n) :
    ((zip2d f a b).getD i []).getD j Fl.nan =
      f ((a.getD i []).getD j Fl.nan) ((b.getD i []).getD j Fl.nan) := by
  unfold zip2d
  rw [zipWith_getD _ a b [] [] [] (ha.1 ▸ hi) (hb.1 ▸ hi)]
  exact zipWith_getD f _ _ Fl.nan Fl.nan Fl.nan (by rw [ha.rowLen hi]; exact hj)
    (by rw [hb.rowLen hi]; exact hj)

theorem grad1_length (xs : List Fl) : (grad1 xs).length = xs.length := by
  simp [grad1]

theorem rect_gradAxis1 {m n : ℕ} {a : List (List Fl)} (h : Rect m n a) :
    Rect m n (gradAxis1 a) := by
  constructor
  · simp [gradAxis1, h.1]
  · intro r hr
    simp only [gradAxis1, List.mem_map] at hr
    obtain ⟨s, hs, rfl⟩ := hr
    rw [grad1_length]
    exact h.2 s hs

theorem rect_gradAxis0 {m n : ℕ} {a : List (List Fl)} (h : Rect m n a) :
    Rect m n (gradAxis0 a) := by
  constructor
  · simp [gradAxis0, h.1]
  · intro r hr
    simp only [gradAxis0, List.mem_map, List.mem_range] at hr
    obtain ⟨i, hi, rfl⟩ := hr
    have hrow : ∀ k, k < a.length → (a.getD k []).length = n := by
      intro k hk
      exact h.2 _ (getD_mem a [] hk)
    by_cases h1 : a.length ≤ 1
    · rw [if_pos h1, List.length_map, hrow i hi]
    · rw [if_neg h1]
      by_cases h0 : i = 0
      · rw [if_pos h0, List.length_zipWith, hrow 1 (by omega), hrow 0 (by omega),
          Nat.min_self]
      · rw [if_neg h0]
        by_cases hl : i = a.length - 1
        · rw [if_pos hl, List.length_zipWith, hrow (a.length - 1) (by omega),
            hrow (a.length - 2) (by omega), Nat.min_self]
        · rw [if_neg hl, List.length_map, List.length_zipWith, hrow (i + 1) (by omega),
            hrow (i - 1) (by omega), Nat.min_self]

theorem rect_dx (rcos : ℚ → ℚ) (piQ : ℚ) {m n : ℕ} {lon lat : List Fl}
    (hlat : lat.length = m) (hlon : lon.length = n) :
    Rect m n ((lat.map (fun x => Fl.fmul x (Fl.num (piQ / 180)))).map
      (fun lr => ((grad1 lon).map (fun x => Fl.fmul x (Fl.num (piQ / 180)))).map
        (fun dl => Fl.fmul (Fl.fmul dl (Fl.num 6371000)) (Fl.fcos rcos lr)))) := by
  constructor
  · simp [hlat]
  · intro r hr
    simp only [List.mem_map] at hr
    obtain ⟨lr, _, rfl⟩ := hr
    simp [grad1_length, hlon]

theorem rect_finite_diff (rcos : ℚ → ℚ) (piQ : ℚ) {m n : ℕ} {lon lat : List Fl}
    {u v : List (List Fl)} (hlat : lat.length = m) (hlon : lon.length = n)
    (hu : Rect m n u) (hv : Rect m n v) :
    Rect m n (finite_diff_divergence rcos piQ lon lat u v) := by
  refine rect_zip2d _ (rect_zip2d _ (rect_gradAxis1 hu) (rect_dx rcos piQ hlat hlon)) ?_
  constructor
  · simp [List.length_zipWith, grad1_length, hlat, (rect_gradAxis0 hv).1]
  · intro r hr
    obtain ⟨row, dyi, hrow, _, rfl⟩ := mem_zipWith hr
    simp [(rect_gradAxis0 hv).2 row hrow]

theorem rect_scale01 (qmin qmax : ℚ) (clip : Bool) {m n : ℕ} {a : List (List Fl)}
    (h : Rect m n a) : Rect m n (scale_01 a qmin qmax clip) := by
  cases clip with
  | false => exact rect_map2d _ h
  | true => exact rect_map2d _ (rect_map2d _ h)

theorem build_swi_eq (rsqrt rcos : ℚ → ℚ) (piQ : ℚ) (ds : Dataset) :
    (build_swi rsqrt rcos piQ ds).2.2 = specIndexField rsqrt rcos piQ ds := rfl

theorem rect_build_swi (rsqrt rcos : ℚ → ℚ) (piQ : ℚ) (ds : Dataset) {m n : ℕ}
    (hlat : ds.lat.length = m) (hlon : ds.lon.length = n)
    (hts : Rect m n ds.t_sfc) (ht8 : Rect m n ds.t850) (hu : Rect m n ds.u10)
    (hv : Rect m n ds.v10) (hc : Rect m n ds.cape) :
    Rect m n (build_swi rsqrt rcos piQ ds).2.2 := by
  rw [build_swi_eq]
  exact rect_zip2d _
    (rect_zip2d _ (rect_zip2d _ (rect_map2d _ hts) (rect_map2d _ ht8)) (rect_map2d _ hc))
    (rect_scale01 _ _ _ (rect_map2d _ (rect_finite_diff rcos piQ hlat hlon hu hv)))

theorem build_swi_getD (rsqrt rcos : ℚ → ℚ) (piQ : ℚ) (ds : Dataset) {m n : ℕ}
    (hlat : ds.lat.length = m) (hlon : ds.lon.length = n)
    (hts : Rect m n ds.t_sfc) (ht8 : Rect m n ds.t850) (hu : Rect m n ds.u10)
    (hv : Rect m n ds.v10) (hc : Rect m n ds.cape) {i j : ℕ} (hi : i < m) (hj : j < n) :
    (((build_swi rsqrt rcos piQ ds).2.2).getD i []).getD j Fl.nan =
      Fl.fmul
        (Fl.fmul
          (Fl.fsub
            (Fl.fsub ((ds.t_sfc.getD i []).getD j Fl.nan) (Fl.num (273.15 : ℚ)))
            (Fl.fsub ((ds.t850.getD i []).getD j Fl.nan) (Fl.num (273.15 : ℚ))))
          (Fl.fdiv (Fl.fsqrt rsqrt (Fl.fmax ((ds.cape.getD i []).getD j Fl.nan) (Fl.num 0)))
            (Fl.num 10)))
        (((specNormalizedConvergence rcos piQ ds.lon ds.lat ds.u10 ds.v10).getD i []).getD j
          Fl.nan) := by
  have h1 : Rect m n (specDeltaT ds.t_sfc ds.t850) :=
    rect_zip2d _ (rect_map2d _ hts) (rect_map2d _ ht8)
  have h2 : Rect m n (specDepthProxy rsqrt ds.cape) := rect_map2d _ hc
  have h3 : Rect m n (specNormalizedConvergence rcos piQ ds.lon ds.lat ds.u10 ds.v10) :=
    rect_scale01 _ _ _ (rect_map2d _ (rect_finite_diff rcos piQ hlat hlon hu hv))
  rw [build_swi_eq]
  unfold specIndexField
  rw [zip2d_getD _ (rect_zip2d _ h1 h2) h3 hi hj, zip2d_getD _ h1 h2 hi hj]
  unfold specDeltaT specDepthProxy
  rw [zip2d_getD _ (rect_map2d _ hts) (rect_map2d _ ht8) hi hj,
    map2d_getD _ hts hi hj, map2d_getD _ ht8 hi hj, map2d_getD _ hc hi hj]

theorem Fl.fsub_nan_left (x : Fl) : Fl.fsub Fl.nan x = Fl.nan := by cases x <;> rfl

theorem Fl.fsub_nan_right (x : Fl) : Fl.fsub x Fl.nan = Fl.nan := by cases x <;> rfl

theorem Fl.fmul_nan_left (x : Fl) : Fl.fmul Fl.nan x = Fl.nan := by cases x <;> rfl

theorem Fl.fmul_nan_right (x : Fl) : Fl.fmul x Fl.nan = Fl.nan := by cases x <;> rfl

theorem Fl.fmax_nan_left (x : Fl) : Fl.fmax Fl.nan x = Fl.nan := by cases x <;> rfl

theorem Fl.fdiv_nan_left (x : Fl) : Fl.fdiv Fl.nan x = Fl.nan := by cases x <;> rfl

theorem Fl.fsqrt_nan (rsqrt : ℚ → ℚ) : Fl.fsqrt rsqrt Fl.nan = Fl.nan := rfl

/-- C1: for every input dataset, `build_swi` returns exactly
`index = ΔT × depth_proxy × normalized_convergence`, where the three
factors are the spec's ΔT (surface minus upper-level temperature,
Celsius), the sqrt-CAPE depth proxy scaled by 1/10, and the
quantile-rescaled sign-inverted finite-difference divergence. -/
theorem build_swi_matches_spec_formula (rsqrt rcos : ℚ → ℚ) (piQ : ℚ) (ds : Dataset) :
    (build_swi rsqrt rcos piQ ds).2.2 = specIndexField rsqrt rcos piQ ds := rfl

theorem toNat_cast_q {z : ℤ} (hz : 0 ≤ z) : ((z.toNat : ℕ) : ℚ) = (z : ℚ) := by
  have h := Int.toNat_of_nonneg hz
  calc ((z.toNat : ℕ) : ℚ) = (((z.toNat : ℕ) : ℤ) : ℚ) := by norm_cast
  _ = (z : ℚ) := by rw [h]

theorem sorted_getD_mono {s : List ℚ} (hs : List.Sorted (· ≤ ·) s) {a b : ℕ}
    (hab : a ≤ b) (hb : b < s.length) : s.getD a 0 ≤ s.getD b 0 := by
  rcases eq_or_lt_of_le hab with rfl | hlt
  · exact le_refl _
  · have ha : a < s.length := lt_of_le_of_lt hab hb
    rw [getD_eq_getElem _ _ ha, getD_eq_getElem _ _ hb]
    have h := @List.Sorted.rel_get_of_lt ℚ (· ≤ ·) s hs ⟨a, ha⟩ ⟨b, hb⟩ (by simpa using hlt)
    simpa using h

theorem interp_aux {s : List ℚ} (hs : List.Sorted (· ≤ ·) s)
    {h1 h2 : ℚ} (h10 : 0 ≤ h1) (h12 : h1 ≤ h2) (h2top : h2 ≤ (s.length : ℚ) - 1) :
    s.getD (Int.floor h1).toNat 0 +
      (h1 - (((Int.floor h1).toNat : ℕ) : ℚ)) *
        (s.getD ((Int.floor h1).toNat + 1) 0 - s.getD (Int.floor h1).toNat 0) ≤
    s.getD (Int.floor h2).toNat 0 +
      (h2 - (((Int.floor h2).toNat : ℕ) : ℚ)) *
        (s.getD ((Int.floor h2).toNat + 1) 0 - s.getD (Int.floor h2).toNat 0) := by
  have h20 : 0 ≤ h2 := le_trans h10 h12
  have f1nn : 0 ≤ Int.floor h1 := Int.floor_nonneg.mpr h10
  have f2nn : 0 ≤ Int.floor h2 := Int.floor_nonneg.mpr h20
  have hn : 1 ≤ s.length := by
    by_contra hcon
    have hz : s.length = 0 := by omega
    rw [hz] at h2top
    push_cast at h2top
    linarith
  set i1 := (Int.floor h1).toNat with hi1
  set i2 := (Int.floor h2).toNat with hi2
  have c1 : ((i1 : ℕ) : ℚ) ≤ h1 := by
    rw [hi1, toNat_cast_q f1nn]
    exact Int.floor_le h1
  have c1' : h1 < ((i1 : ℕ) : ℚ) + 1 := by
    rw [hi1, toNat_cast_q f1nn]
    exact Int.lt_floor_add_one h1
  have c2 : ((i2 : ℕ) : ℚ) ≤ h2 := by
    rw [hi2, toNat_cast_q f2nn]
    exact Int.floor_le h2
  have c2' : h2 < ((i2 : ℕ) : ℚ) + 1 := by
    rw [hi2, toNat_cast_q f2nn]
    exact Int.lt_floor_add_one h2
  have hi12 : i1 ≤ i2 := by
    rw [hi1, hi2]
    exact Int.toNat_le_toNat (Int.floor_mono h12)
  have hi2n : i2 + 1 ≤ s.length := by
    have hq : ((i2 : ℕ) : ℚ) + 1 ≤ (s.length : ℚ) := by linarith
    exact_mod_cast hq
  rcases eq_or_lt_of_le hi12 with heq | hlt
  · rw [← heq] at c2 c2' ⊢
    by_cases hcase : i1 + 1 < s.length
    · have hslope : s.getD i1 0 ≤ s.getD (i1 + 1) 0 :=
        sorted_getD_mono hs (Nat.le_succ i1) hcase
      nlinarith
    · have hge : ((s.length : ℚ) - 1) ≤ ((i1 : ℕ) : ℚ) := by
        have hnat : s.length - 1 ≤ i1 := by omega
        have hc : ((s.length - 1 : ℕ) : ℚ) ≤ ((i1 : ℕ) : ℚ) := by exact_mod_cast hnat
        rwa [Nat.cast_sub hn] at hc
      have he1 : h1 = ((i1 : ℕ) : ℚ) := le_antisymm (by linarith) c1
      have he2 : h2 = ((i1 : ℕ) : ℚ) := le_antisymm (by linarith) c2
      rw [he1, he2]
  · have hi1n : i1 + 1 ≤ i2 := hlt
    have hi1n' : i1 + 1 < s.length := by omega
    have hub : s.getD i1 0 + (h1 - ((i1 : ℕ) : ℚ)) *
        (s.getD (i1 + 1) 0 - s.getD i1 0) ≤ s.getD (i1 + 1) 0 := by
      have hslope : s.getD i1 0 ≤ s.getD (i1 + 1) 0 :=
        sorted_getD_mono hs (Nat.le_succ i1) hi1n'
      have hfr : h1 - ((i1 : ℕ) : ℚ) ≤ 1 := by linarith
      have hfr0 : 0 ≤ h1 - ((i1 : ℕ) : ℚ) := by linarith
      nlinarith
    have hmid : s.getD (i1 + 1) 0 ≤ s.getD i2 0 := sorted_getD_mono hs hi1n (by omega)
    have hlb : s.getD i2 0 ≤ s.getD i2 0 + (h2 - ((i2 : ℕ) : ℚ)) *
        (s.getD (i2 + 1) 0 - s.getD i2 0) := by
      by_cases hcase : i2 + 1 < s.length
      · have hslope : s.getD i2 0 ≤ s.getD (i2 + 1) 0 :=
          sorted_getD_mono hs (Nat.le_succ i2) hcase
        have hfr0 : 0 ≤ h2 - ((i2 : ℕ) : ℚ) := by linarith
        nlinarith
      · have hge : ((s.length : ℚ) - 1) ≤ ((i2 : ℕ) : ℚ) := by
          have hnat : s.length - 1 ≤ i2 := by omega
          have hc : ((s.length - 1 : ℕ) : ℚ) ≤ ((i2 : ℕ) : ℚ) := by exact_mod_cast hnat
          rwa [Nat.cast_sub hn] at hc
        have he2 : h2 = ((i2 : ℕ) : ℚ) := le_antisymm (by linarith) c2
        rw [he2, sub_self, zero_mul, add_zero]
    linarith

theorem interpSorted_mono {s : List ℚ} (hs : List.Sorted (· ≤ ·) s) (hne : s ≠ [])
    {q1 q2 : ℚ} (hq0 : 0 ≤ q1) (hq12 : q1 ≤ q2) (hq1 : q2 ≤ 1) :
    interpSorted s q1 ≤ interpSorted s q2 := by
  have hn : 0 < s.length := List.length_pos.mpr hne
  have hN0 : (0 : ℚ) ≤ (s.length : ℚ) - 1 := by
    have h : (1 : ℚ) ≤ (s.length : ℚ) := by exact_mod_cast hn
    linarith
  have h10 : 0 ≤ q1 * ((s.length : ℚ) - 1) := mul_nonneg hq0 hN0
  have h12 : q1 * ((s.length : ℚ) - 1) ≤ q2 * ((s.length : ℚ) - 1) :=
    mul_le_mul_of_nonneg_right hq12 hN0
  have h2top : q2 * ((s.length : ℚ) - 1) ≤ (s.length : ℚ) - 1 := by
    have h := mul_le_mul_of_nonneg_right hq1 hN0
    linarith
  exact interp_aux hs h10 h12 h2top

theorem quantileQ_mono {xs : List ℚ} (hne : xs ≠ []) {q1 q2 : ℚ}
    (hq0 : 0 ≤ q1) (hq12 : q1 ≤ q2) (hq1 : q2 ≤ 1) :
    quantileQ q1 xs ≤ quantileQ q2 xs := by
  have hlen : (List.insertionSort (· ≤ ·) xs).length = xs.length :=
    List.length_insertionSort _ _
  have hsne : List.insertionSort (· ≤ ·) xs ≠ [] := by
    intro hcon
    apply hne
    have hl := congrArg List.length hcon
    rw [hlen] at hl
    exact List.eq_nil_of_length_eq_zero hl
  exact interpSorted_mono (List.sorted_insertionSort _ xs) hsne hq0 hq12 hq1

theorem shape2_map2d (f : Fl → Fl) (a : List (List Fl)) :
    shape2 (map2d f a) = shape2 a := by
  induction a with
  | nil => rfl
  | cons r t ih =>
    simp only [shape2, map2d, List.map_cons, List.length_map] at ih ⊢
    rw [ih]

theorem mem_map2d_flatten {f : Fl → Fl} {a : List (List Fl)} {x : Fl}
    (hx : x ∈ (map2d f a).flatten) : ∃ y, x = f y := by
  simp only [map2d, List.mem_flatten, List.mem_map] at hx
  obtain ⟨r, ⟨s, _, rfl⟩, hxr⟩ := hx
  obtain ⟨y, _, rfl⟩ := List.mem_map.mp hxr
  exact ⟨y, rfl⟩

theorem nanquantile_of_ne_nil {a : List (List Fl)} {z : ℚ} {zs : List ℚ}
    (hfv : finiteVals a = z :: zs) (q : ℚ) :
    nanquantile q a = Fl.num (quantileQ q (finiteVals a)) := by
  unfold nanquantile
  rw [hfv]

/-- C7: for every input array with at least one finite sample, `scale_01`
with clipping enabled returns an array of the same shape whose finite
entries all lie in [0, 1], and the guarded denominator `hi - lo + 1e-9`
is finite and strictly positive (the 5th/95th-percentile points satisfy
lo ≤ hi, so the guard prevents division by zero even when all finite
samples are equal). -/
theorem scale_01_bounded_and_guarded (a : List (List Fl))
    (hne : finiteVals a ≠ []) :
    shape2 (scale_01 a (5 / 100) (95 / 100) true) = shape2 a ∧
    (scale_01 a (5 / 100) (95 / 100) true).flatten.all flOk01 = true ∧
    flPos (scaleDenom a (5 / 100) (95 / 100)) = true := by
  refine ⟨?_, ?_, ?_⟩
  · exact (shape2_map2d _ _).trans (shape2_map2d _ _)
  · rw [List.all_eq_true]
    intro x hx
    obtain ⟨y, rfl⟩ := mem_map2d_flatten hx
    cases y with
    | nan => rfl
    | num v =>
      simp only [Fl.fclip01, flOk01]
      rw [decide_eq_true_eq]
      exact ⟨le_min (le_max_right v 0) zero_le_one, min_le_right _ _⟩
  · cases hfv : finiteVals a with
    | nil => exact absurd hfv hne
    | cons z zs =>
      rw [scaleDenom, nanquantile_of_ne_nil hfv (5 / 100),
        nanquantile_of_ne_nil hfv (95 / 100)]
      have hmono : quantileQ (5 / 100) (finiteVals a) ≤ quantileQ (95 / 100) (finiteVals a) :=
        quantileQ_mono hne (by norm_num) (by norm_num) (by norm_num)
      have heps : (0 : ℚ) < (1e-9 : ℚ) := by norm_num
      simp only [Fl.fsub, Fl.fadd, flPos]
      rw [decide_eq_true_eq]
      linarith

/-- Witness for C7 at the concrete 2×2 array `arrW7` (three finite
samples, one NaN). -/
theorem scale_01_bounded_and_guarded_witness :
    finiteVals arrW7 ≠ [] ∧
    (shape2 (scale_01 arrW7 (5 / 100) (95 / 100) true) = shape2 arrW7 ∧
     (scale_01 arrW7 (5 / 100) (95 / 100) true).flatten.all flOk01 = true ∧
     flPos (scaleDenom arrW7 (5 / 100) (95 / 100)) = true) :=
  ⟨by decide, scale_01_bounded_and_guarded arrW7 (by decide)⟩

unseal Rat.add Rat.sub Rat.mul Rat.inv Rat.ofScientific in
/-- C6 counterexample: the claim says a non-finite raw sample yields a
non-finite or sentinel value at the corresponding grid point, for every
input field.  On `dsWindNan` the 10 m u-wind is NaN at grid point (1,1),
yet the derived index at (1,1) is the ordinary finite value 0 (and not a
sentinel): the centred difference at an interior point reads only its
neighbours, so the NaN lands on the neighbouring points instead. -/
theorem wind_nan_not_propagated_to_point_cex :
    (dsWindNan.u10.getD 1 []).getD 1 Fl.nan = Fl.nan ∧
    (((build_swi (fun q => q) (fun q => q) 3 dsWindNan).2.2).getD 1 []).getD 1 Fl.nan
      = Fl.num 0 := by
  exact ⟨rfl, by decide⟩

/-- C6 (amended): the derivation is total (never crashes) and preserves
the grid shape: for rectangular inputs over an at-least-2×2 lat/lon grid
the index field is again `lat.length × lon.length`; and a non-finite raw
sample in one of the pointwise-consumed fields (surface temperature,
850 hPa temperature, CAPE) yields a non-finite value at the corresponding
grid point.  (A non-finite wind sample instead contaminates its
finite-difference stencil neighbours; the corresponding point itself can
stay finite — see the counterexample.) -/
theorem build_swi_shape_and_scalar_nan_prop (rsqrt rcos : ℚ → ℚ) (piQ : ℚ)
    (ds : Dataset) (m n : ℕ) (hm : 2 ≤ m) (hn : 2 ≤ n)
    (hlat : ds.lat.length = m) (hlon : ds.lon.length = n)
    (hts : Rect m n ds.t_sfc) (ht8 : Rect m n ds.t850) (hu : Rect m n ds.u10)
    (hv : Rect m n ds.v10) (hc : Rect m n ds.cape) :
    Rect m n (build_swi rsqrt rcos piQ ds).2.2 ∧
    (∀ i j, i < m → j < n →
      ((ds.t_sfc.getD i []).getD j Fl.nan = Fl.nan ∨
       (ds.t850.getD i []).getD j Fl.nan = Fl.nan ∨
       (ds.cape.getD i []).getD j Fl.nan = Fl.nan) →
      (((build_swi rsqrt rcos piQ ds).2.2).getD i []).getD j Fl.nan = Fl.nan) := by
  refine ⟨rect_build_swi rsqrt rcos piQ ds hlat hlon hts ht8 hu hv hc, ?_⟩
  intro i j hi hj hcase
  rw [build_swi_getD rsqrt rcos piQ ds hlat hlon hts ht8 hu hv hc hi hj]
  rcases hcase with h | h | h
  · rw [h, Fl.fsub_nan_left, Fl.fsub_nan_left, Fl.fmul_nan_left, Fl.fmul_nan_left]
  · rw [h, Fl.fsub_nan_left, Fl.fsub_nan_right, Fl.fmul_nan_left, Fl.fmul_nan_left]
  · rw [h, Fl.fmax_nan_left, Fl.fsqrt_nan, Fl.fdiv_nan_left, Fl.fmul_nan_right,
      Fl.fmul_nan_left]

/-- Witness for C6 (amended): the concrete 3×3 dataset `dsCapeNan` (CAPE
NaN at (0,0)) has a 3×3 index field that is non-finite at (0,0). -/
theorem build_swi_shape_and_scalar_nan_prop_witness :
    Rect 3 3 (build_swi (fun q => q) (fun q => q) 3 dsCapeNan).2.2 ∧
    (((build_swi (fun q => q) (fun q => q) 3 dsCapeNan).2.2).getD 0 []).getD 0 Fl.nan
      = Fl.nan := by
  have h := build_swi_shape_and_scalar_nan_prop (fun q => q) (fun q => q) 3 dsCapeNan 3 3
    (by decide) (by decide) (by decide) (by decide) (by decide) (by decide) (by decide)
    (by decide) (by decide)
  exact ⟨h.1, h.2 0 0 (by decide) (by decide) (Or.inr (Or.inr (by decide)))⟩

/-- C10: for every input timestamp, the hour-0 candidate always satisfies
the at-or-before-now test, `latest_cycle` always returns a same-day
00/06/12/18 boundary, and the returned value is never the previous-day
18Z fallback (which is therefore unreachable): the resolver is total and
never produces a "no run available" outcome. -/
theorem latest_cycle_total_same_day (now : PyDateTime) :
    dtLe (replaceTime now 0) now = true ∧
    (∃ h, (h = 18 ∨ h = 12 ∨ h = 6 ∨ h = 0) ∧ latest_cycle now = replaceTime now h) ∧
    latest_cycle now ≠ replaceTime (subDays now 1) 18 := by
  refine ⟨replaceTime_zero_le now, latest_cycle_same_day now, ?_⟩
  obtain ⟨h, _, heq⟩ := latest_cycle_same_day now
  rw [heq]
  intro hcontra
  have hday := congrArg PyDateTime.day hcontra
  simp only [replaceTime, subDays] at hday
  omega

/-- C4 counterexample: the fetcher performs no retry.  With a network
oracle whose first response is a 503 and whose second response would
succeed, the code's fetch fails outright, while the spec's retrying
fetcher (instantiated with 3 attempts) succeeds on the second attempt. -/
theorem fetch_does_not_retry_cex :
    fetch_gfs_subset netFailThenOk = Except.error ("HTTP 503") ∧
    specSubsetFetch 3 netFailThenOk = Except.ok dsSecondW := by
  exact ⟨rfl, rfl⟩

/-- C4 (amended): `fetch_gfs_subset` performs exactly one attempt — its
outcome depends only on the first response, so there is no retry loop and
no retry-count or delay configuration — and it raises a fatal error
whenever that single attempt's status is 400 or above. -/
theorem fetch_single_attempt (net1 net2 : ℕ → HttpResp) (h : net1 0 = net2 0) :
    fetch_gfs_subset net1 = fetch_gfs_subset net2 ∧
    (400 ≤ (net1 0).status →
      fetch_gfs_subset net1 = Except.error ("HTTP " ++ toString (net1 0).status)) := by
  constructor
  · unfold fetch_gfs_subset
    rw [h]
  · intro hs
    unfold fetch_gfs_subset
    rw [if_pos hs]

/-- Witness for C4 (amended) at two concrete oracles that agree on the
first response. -/
theorem fetch_single_attempt_witness :
    fetch_gfs_subset netAllFail = fetch_gfs_subset netFailThenOk ∧
    fetch_gfs_subset netAllFail
      = Except.error ("HTTP " ++ toString (netAllFail 0).status) := by
  have h := fetch_single_attempt netAllFail netFailThenOk rfl
  exact ⟨h.1, h.2 (by decide)⟩

/-- C3 counterexample: the resolver performs no availability
confirmation.  Under an availability oracle on which no cycle is
published, the spec's probing resolver reports no cycle (the
soft-failure path), but `latest_cycle` still returns the same-day 18Z
cycle; and a run whose fetch fails (how an unpublished cycle actually
surfaces in this code) exits non-zero rather than zero. -/
theorem resolver_ignores_availability_cex :
    specCycleResolver (fun _ => false) now20 = none ∧
    latest_cycle now20 = ⟨20000, 18, 0, 0, 0⟩ ∧
    (mainRun (fun q => q) (fun q => q) 3 now20 envFetchErr fs00).1
      = ExitStatus.failure := by
  refine ⟨rfl, by decide, rfl⟩

/-- C3 (amended): the cycle resolver selects a candidate by timestamp
comparison alone and always returns a same-day 00/06/12/18 boundary —
there is no availability probe and no no-data outcome (while the spec's
probing contract yields `none` under an everywhere-unavailable source);
when the resolved cycle's data is unavailable the fetch raises, and the
run exits non-zero, leaving previously published artifacts intact. -/
theorem resolver_no_probe_fetch_error_nonzero (rsqrt rcos : ℚ → ℚ) (piQ : ℚ)
    (now : PyDateTime) (env : Env) (fs0 : FS) (e : String)
    (hf : env.fetch = Except.error e) :
    mainRun rsqrt rcos piQ now env fs0 = (ExitStatus.failure, fs0) ∧
    specCycleResolver (fun _ => false) now = none ∧
    (∃ h, (h = 18 ∨ h = 12 ∨ h = 6 ∨ h = 0) ∧
      latest_cycle now = replaceTime now h) := by
  refine ⟨?_, rfl, latest_cycle_same_day now⟩
  unfold mainRun
  rw [hf]

/-- Witness for C3 (amended) at a concrete "now" and a concrete failing
fetch. -/
theorem resolver_no_probe_fetch_error_nonzero_witness :
    mainRun (fun q => q) (fun q => q) 3 now20 envFetchErr fs00
      = (ExitStatus.failure, fs00) ∧
    specCycleResolver (fun _ => false) now20 = none ∧
    (∃ h, (h = 18 ∨ h = 12 ∨ h = 6 ∨ h = 0) ∧
      latest_cycle now20 = replaceTime now20 h) :=
  resolver_no_probe_fetch_error_nonzero (fun q => q) (fun q => q) 3 now20 envFetchErr
    fs00 "HTTP 404" rfl

/-- C5 counterexample: in a run whose fetch and render succeed but whose
metadata write fails, the raster is overwritten (the store gains the new
raster) while the metadata is not updated, and the run fails — refuting
"the two artifacts are written together or not at all". -/
theorem raster_overwritten_without_meta_cex :
    (mainRun (fun q => q) (fun q => q) 3 now20 envMetaFail fs00).1
      = ExitStatus.failure ∧
    (mainRun (fun q => q) (fun q => q) 3 now20 envMetaFail fs00).2.png
      = some (build_swi (fun q => q) (fun q => q) 3 dsEmptyW) ∧
    fs00.png = none ∧
    (mainRun (fun q => q) (fun q => q) 3 now20 envMetaFail fs00).2.meta = none := by
  exact ⟨rfl, rfl, rfl, rfl⟩

/-- C5 (amended): publication is sequential, not atomic.  A run that
fails at or before the fetch leaves both artifacts unchanged and exits
non-zero (likewise a failing render leaves the store unchanged in this
model), but a run whose metadata write fails after a successful render
leaves the raster overwritten with the new field while the metadata keeps
its previous value: atomicity holds only up to the render stage. -/
theorem publish_sequential_not_atomic (rsqrt rcos : ℚ → ℚ) (piQ : ℚ)
    (now : PyDateTime) (env : Env) (fs0 : FS) :
    (∀ e, env.fetch = Except.error e →
      mainRun rsqrt rcos piQ now env fs0 = (ExitStatus.failure, fs0)) ∧
    (env.renderOk = false → (mainRun rsqrt rcos piQ now env fs0).2 = fs0) ∧
    (∀ ds, env.fetch = Except.ok ds → env.renderOk = true → env.metaOk = false →
      mainRun rsqrt rcos piQ now env fs0
        = (ExitStatus.failure, ⟨some (build_swi rsqrt rcos piQ ds), fs0.meta⟩)) := by
  refine ⟨?_, ?_, ?_⟩
  · intro e hf
    unfold mainRun
    rw [hf]
  · intro hr
    unfold mainRun
    cases hf : env.fetch with
    | error e => rfl
    | ok ds =>
      rw [hr]
      rfl
  · intro ds hf hr hm
    unfold mainRun
    rw [hf, hr, hm]
    rfl

/-- Witness for C5 (amended) at concrete environments: a failing fetch
leaves the store unchanged; a failing metadata write after a successful
render leaves the new raster with the old (absent) metadata. -/
theorem publish_sequential_not_atomic_witness :
    mainRun (fun q => q) (fun q => q) 3 now20 envFetchErr fs00
      = (ExitStatus.failure, fs00) ∧
    mainRun (fun q => q) (fun q => q) 3 now20 envMetaFail fs00
      = (ExitStatus.failure,
         ⟨some (build_swi (fun q => q) (fun q => q) 3 dsEmptyW), none⟩) := by
  have h1 := publish_sequential_not_atomic (fun q => q) (fun q => q) 3 now20 envFetchErr fs00
  have h2 := publish_sequential_not_atomic (fun q => q) (fun q => q) 3 now20 envMetaFail fs00
  exact ⟨h1.1 "HTTP 404" rfl, h2.2.2 dsEmptyW rfl rfl rfl⟩

/-- C8 counterexample: the classification scheme in the source has
exactly as many colours as breakpoints (7 and 7, pinned by an `assert`
in `make_swi.py`), not one more colour than breakpoints. -/
theorem colors_not_one_more_than_levels_cex :
    COLORS.length = 7 ∧ LEVELS.length = 7 ∧
    ¬ COLORS.length = LEVELS.length + 1 := by
  refine ⟨rfl, rfl, by decide⟩

/-- C8 (amended): the scheme is an ordered (strictly increasing)
breakpoint sequence with a parallel colour sequence of the same length
(`assert len(COLORS) == len(LEVELS)` in the source), whose first colour
is fully transparent (`#00000000`, alpha byte "00"), so values at or
below the lowest breakpoint classify to the transparent colour. -/
theorem classification_equal_length_transparent :
    List.Chain' (fun a b => a < b) LEVELS ∧
    COLORS.length = LEVELS.length ∧
    COLORS.getD 0 "" = "#00000000" ∧
    alphaHex (COLORS.getD 0 "") = "00" ∧
    (∀ v : ℚ, v ≤ LEVELS.getD 0 0 → classify LEVELS COLORS v = COLORS.getD 0 "") := by
  refine ⟨?_, rfl, rfl, rfl, ?_⟩
  · simp only [LEVELS, List.chain'_cons, List.chain'_singleton, and_true]
    norm_num
  · intro v hv
    have hv0 : v ≤ 0 := hv
    unfold classify
    have hcount : LEVELS.countP (fun l => decide (l < v)) = 0 := by
      rw [List.countP_eq_zero]
      intro l hl hcon
      rw [decide_eq_true_eq] at hcon
      fin_cases hl <;> linarith
    rw [hcount]

/-- Witness for C8 (amended): the concrete value -1 is at or below the
lowest breakpoint and classifies to the first (transparent) colour. -/
theorem classification_equal_length_transparent_witness :
    ((-1 : ℚ) ≤ LEVELS.getD 0 0) ∧
    classify LEVELS COLORS (-1) = COLORS.getD 0 "" := by
  have hle : (-1 : ℚ) ≤ LEVELS.getD 0 0 := by
    show (-1 : ℚ) ≤ 0
    norm_num
  exact ⟨hle, classification_equal_length_transparent.2.2.2.2 (-1) hle⟩

/-- C9: the metadata record has exactly the four fields generated_utc,
cycle_utc, bounds, and levels; bounds is an object with keys
lon_w/lon_e/lat_s/lat_n equal to the configured bounding box
(-92, -74, 40.5, 49.5); levels is the ordered breakpoint sequence; and
the two timestamps are the ISO-8601 renderings of the generation and
cycle times with a trailing "Z". -/
theorem metadata_fields_bounds_levels (now cyc : PyDateTime) :
    jvKeys (mkMeta now cyc) = ["generated_utc", "cycle_utc", "bounds", "levels"] ∧
    jvLookup (mkMeta now cyc) ("bounds")
      = some (Jv.obj [("lon_w", Jv.qnum (-92)), ("lon_e", Jv.qnum (-74)),
          ("lat_s", Jv.qnum (40.5 : ℚ)), ("lat_n", Jv.qnum (49.5 : ℚ))]) ∧
    jvLookup (mkMeta now cyc) ("levels") = some (Jv.arr (LEVELS.map Jv.qnum)) ∧
    jvLookup (mkMeta now cyc) ("generated_utc")
      = some (Jv.str (isoformat now ++ "Z")) ∧
    jvLookup (mkMeta now cyc) ("cycle_utc")
      = some (Jv.str (isoformat cyc ++ "Z")) := by
  exact ⟨rfl, rfl, rfl, rfl, rfl⟩

end SWI
